import Mathlib

/-!
Shallow embedding of `create-exercise.js`, the single-file scaffolding tool of
this repository.  The script reads a projects directory, computes the next
exercise number, shells out to an external generator, updates the `scripts`
mapping of `package.json`, and writes a templated `README.md`.

Modelling conventions:
* JS strings are Lean `String`s; JS numbers that the script produces are `Nat`
  (all arithmetic in the script stays on small non-negative integers).
* A JS object used as a string-to-string map (`packageJson.scripts`) is an
  association list `List (String × String)` in insertion order, which is the
  enumeration order `Object.keys` observes.
* The file system is a record: the projects directory is `Option (List String)`
  (`none` = directory absent, mirroring the `fs.existsSync` check), plus the
  manifest scripts and the README files keyed by directory name.
* `execSync` of the external generator is an oracle input: `none` = success
  (the generated directory appears), `some msg` = the call throws with message
  `msg`, which the catch-all handler prints before `process.exit(1)`.
-/

namespace CreateExercise

/-- Decimal digit character, as produced by JS number-to-string conversion. -/
def digitChar (d : Nat) : Char := Char.ofNat (48 + d)

/-- Decimal digits of `n`, most significant first, with enough fuel; `[]` for
`0`.  The fuel makes the recursion structural, so terms evaluate by reduction. -/
def decimalDigitsAux : Nat → Nat → List Char
  | 0, _ => []
  | f + 1, n => if n = 0 then [] else decimalDigitsAux f (n / 10) ++ [digitChar (n % 10)]

/-- Decimal digits of `n`, most significant first; `[]` for `0`. -/
def toDecimal (n : Nat) : List Char := decimalDigitsAux n n

/-- JS `String(n)` for a non-negative integer `n`. -/
def jsString (n : Nat) : String :=
  if n = 0 then "0" else String.mk (toDecimal n)

/-- JS `s.padStart(w, c)` for a single-character pad string. -/
def padStart (s : String) (w : Nat) (c : Char) : String :=
  String.mk (List.replicate (w - s.length) c ++ s.toList)

/-- Line 63 of the script: `String(nextNumber).padStart(2, '0')`. -/
def paddedNumber (n : Nat) : String := padStart (jsString n) 2 '0'

/-- JS `parseInt` on a non-empty all-digit string, as captured by the regex. -/
def digitsVal (cs : List Char) : Nat :=
  cs.foldl (fun a c => 10 * a + (c.toNat - 48)) 0

/-- JS `dir.startsWith('exercise-')` from the filter on line 50. -/
def jsStartsWith (s pre : String) : Bool := pre.toList.isPrefixOf s.toList

/-- The regex match on line 53: `dir.match` with pattern `^exercise-(\d+)-`,
returning the parsed capture group.  The backtracking regex succeeds exactly
when the maximal digit run after the literal prefix is non-empty and followed
by `'-'`. -/
def matchExerciseNum (d : String) : Option Nat :=
  let cs := d.toList
  if "exercise-".toList.isPrefixOf cs then
    let rest := cs.drop 9
    let ds := rest.takeWhile Char.isDigit
    if ds.isEmpty then none
    else if (rest.drop ds.length).head? = some '-' then some (digitsVal ds)
    else none
  else none

/-- Line 54: `match ? parseInt(match[1]) : 0`. -/
def entryValue (d : String) : Nat := (matchExerciseNum d).getD 0

/-- JS `Math.max(...projects)` over a list of non-negative integers. -/
def maxNat (l : List Nat) : Nat := l.foldr max 0

/-- Lines 45-60: the next exercise number.  `none` models a missing projects
directory (`fs.existsSync` false); `some entries` is the directory listing. -/
def nextNumber : Option (List String) → Nat
  | none => 1
  | some entries =>
    let projects := (entries.filter (fun d => jsStartsWith d "exercise-")).map entryValue
    if projects.isEmpty then 1 else maxNat projects + 1

/-- Line 64: `exercise-${paddedNumber}-${exerciseName}`. -/
def fullExerciseName (padded topic : String) : String :=
  "exercise-" ++ padded ++ "-" ++ topic

/-- Line 65: `4200 + nextNumber`. -/
def port (n : Nat) : Nat := 4200 + n

/-! ### The scripts mapping of `package.json` -/

/-- Reading a property of the scripts object. -/
def jsLookup (m : List (String × String)) (k : String) : Option String :=
  (m.find? (fun p => p.1 == k)).map Prod.snd

/-- JS property assignment `obj[k] = v`: overwrite in place when the key
exists, otherwise append at the end of the enumeration order. -/
def jsSet (m : List (String × String)) (k v : String) : List (String × String) :=
  if m.any (fun p => p.1 == k) then m.map (fun p => if p.1 == k then (k, v) else p)
  else m ++ [(k, v)]

/-- JS `Object.keys(scripts)`. -/
def scriptKeys (m : List (String × String)) : List String := m.map Prod.fst

/-- The comparison the default `Array.prototype.sort()` uses on strings:
lexicographic by code unit, here on the character lists of the two strings. -/
def lexLe : List Char → List Char → Bool
  | [], _ => true
  | _ :: _, [] => false
  | a :: as, b :: bs => if a < b then true else if b < a then false else lexLe as bs

/-- String comparison of the default sort, as a boolean. -/
def strLe (a b : String) : Bool := lexLe a.toList b.toList

/-- The sort order of `Object.keys(scripts).sort()` as a relation. -/
def strLeRel (a b : String) : Prop := strLe a b = true

instance : DecidableRel strLeRel := fun a b => instDecidableEqBool (strLe a b) true

/-- Lines 97-101: `Object.keys(scripts).sort()` followed by rebuilding the
object in sorted key order, copying each value across. -/
def sortScripts (m : List (String × String)) : List (String × String) :=
  (List.insertionSort strLeRel (scriptKeys m)).map (fun k => (k, (jsLookup m k).getD ""))

/-- Line 93: the value stored under `start:exNN`. -/
def startCommand (fullName : String) (p : Nat) : String :=
  "ng serve " ++ fullName ++ " --port " ++ jsString p

/-- Line 94: the value stored under `build:exNN`. -/
def buildCommand (fullName : String) : String := "ng build " ++ fullName

/-- Lines 92-101: insert the two scripts, then sort the whole mapping. -/
def updateScripts (m : List (String × String)) (shortName fullName : String)
    (p : Nat) : List (String × String) :=
  sortScripts
    (jsSet (jsSet m ("start:" ++ shortName) (startCommand fullName p))
      ("build:" ++ shortName) (buildCommand fullName))

/-! ### README rendering -/

/-- Line 112: `name.charAt(0).toUpperCase()` concatenated with `name.slice(1)`
in which the global regex replace turns every `-` into a space. -/
def humanizeTopic (s : String) : String :=
  String.mk (match s.toList with
    | [] => []
    | c :: rest => c.toUpper :: rest.map (fun d => if d = '-' then ' ' else d))

/-- The fixed template text after the heading line (lines 113-141). -/
def readmeTemplateRest (shortName : String) (p : Nat) : String :=
  "\n\n## Description\n\nAdd your exercise description here.\n\n" ++
  "## Running This Exercise\n\n```bash\nnpm run start:" ++ shortName ++
  "\n```\n\nThen open http://localhost:" ++ jsString p ++
  " in your browser.\n\n## Learning Objectives\n\n- Objective 1\n- Objective 2\n" ++
  "- Objective 3\n\n## Tasks\n\n- [ ] Task 1\n- [ ] Task 2\n- [ ] Task 3\n\n" ++
  "## Resources\n\n- [Angular Documentation](https://angular.dev)\n"

/-- Lines 112-141: the rendered README text. -/
def exerciseReadme (padded topic shortName : String) (p : Nat) : String :=
  "# Exercise " ++ padded ++ ": " ++ humanizeTopic topic ++
    readmeTemplateRest shortName p

/-! ### Whole-script run model -/

/-- The file-system state the script touches. -/
structure RepoState where
  projects : Option (List String)
  scripts : List (String × String)
  readmes : List (String × String)
deriving DecidableEq

/-- Observable outcome of one invocation.  `dirScanned` records whether the
projects directory was enumerated, `generatorInvoked` whether `execSync` ran. -/
structure RunResult where
  exitCode : Nat
  stderrLines : List String
  state : RepoState
  dirScanned : Bool
  generatorInvoked : Bool
deriving DecidableEq

/-- Lines 34-36: the usage error printed when the argument is falsy. -/
def usageLines : List String :=
  ["Error: Please provide an exercise name",
   "Usage: npm run create-exercise <exercise-name>",
   "Example: npm run create-exercise routing"]

/-- One invocation of the script.  `argv2` is `process.argv[2]` (`none` when
absent), `st` the initial file-system state, `genError` the generator oracle. -/
def runScript (argv2 : Option String) (st : RepoState) (genError : Option String) :
    RunResult :=
  match argv2 with
  | none => ⟨1, usageLines, st, false, false⟩
  | some name =>
    if name = "" then ⟨1, usageLines, st, false, false⟩
    else
      let n := nextNumber st.projects
      let padded := paddedNumber n
      let fullName := fullExerciseName padded name
      let p := port n
      match genError with
      | some msg =>
        ⟨1, ["\n❌ Error creating exercise: " ++ msg], st, true, true⟩
      | none =>
        let st1 : RepoState :=
          { st with projects := some ((st.projects.getD []) ++ [fullName]) }
        let shortName := "ex" ++ padded
        let st2 : RepoState :=
          { st1 with scripts := updateScripts st1.scripts shortName fullName p }
        let readme := exerciseReadme padded name shortName p
        let st3 : RepoState :=
          { st2 with readmes := jsSet st2.readmes fullName readme }
        ⟨0, [], st3, true, true⟩

/-! ### Spec-side definitions, for refinement statements

The following definitions transcribe the specification's own wording (not the
code) so that code-derived definitions can be proved equal to them. -/

/-- The spec's description of the humanized title: the topic's first character
upper-cased, the remaining characters as typed except that every hyphen in the
remainder is replaced by a space. -/
def specHumanizedTitle (topic : String) : String :=
  match topic.toList with
  | [] => ""
  | c :: rest => String.mk (c.toUpper :: rest.map (fun d => if d = '-' then ' ' else d))

/-- The spec's description of the README heading for a padded sequence string
and a topic. -/
def specHeading (padded topic : String) : String :=
  "Exercise " ++ padded ++ ": " ++ specHumanizedTitle topic

/-- The spec's description of the padded sequence string: the decimal rendering
of `n`, left-padded with zeros to a minimum width of 2, never truncated. -/
def specPaddedNumber (n : Nat) : String :=
  if n < 10 then "0" ++ jsString n else jsString n

end CreateExercise

namespace CreateExercise

/-! ### Basic facts about the decimal rendering -/

theorem decimalDigitsAux_zero (f : Nat) : decimalDigitsAux f 0 = [] := by
  cases f <;> simp [decimalDigitsAux]

theorem decimalDigitsAux_stable :
    ∀ f g n : Nat, n ≤ f → n ≤ g → decimalDigitsAux f n = decimalDigitsAux g n := by
  intro f
  induction f with
  | zero =>
    intro g n hf _
    interval_cases n
    simp [decimalDigitsAux_zero]
  | succ f ih =>
    intro g n hf hg
    rcases Nat.eq_zero_or_pos n with h0 | hpos
    · subst h0; simp [decimalDigitsAux_zero]
    · obtain ⟨g', rfl⟩ : ∃ g', g = g' + 1 := ⟨g - 1, by omega⟩
      have hne : n ≠ 0 := Nat.pos_iff_ne_zero.mp hpos
      have hdiv : n / 10 < n := Nat.div_lt_self hpos (by omega)
      simp only [decimalDigitsAux, if_neg hne]
      rw [ih g' (n / 10) (by omega) (by omega)]

theorem toDecimal_zero : toDecimal 0 = [] := rfl

theorem toDecimal_succ (n : Nat) (h : n ≠ 0) :
    toDecimal n = toDecimal (n / 10) ++ [digitChar (n % 10)] := by
  have hpos : 0 < n := Nat.pos_of_ne_zero h
  obtain ⟨m, rfl⟩ : ∃ m, n = m + 1 := ⟨n - 1, by omega⟩
  show decimalDigitsAux (m + 1) (m + 1) = _
  simp only [decimalDigitsAux, if_neg h]
  rw [decimalDigitsAux_stable m ((m + 1) / 10) ((m + 1) / 10) (by omega) (by omega)]
  rfl

theorem toDecimal_ne_nil (n : Nat) (h : n ≠ 0) : toDecimal n ≠ [] := by
  rw [toDecimal_succ n h]
  simp

theorem digitChar_isDigit : ∀ d : Nat, d < 10 → (digitChar d).isDigit = true := by
  decide

theorem digitChar_toNat : ∀ d : Nat, d < 10 → (digitChar d).toNat = 48 + d := by
  decide

theorem toDecimal_all_digits (n : Nat) : ∀ c ∈ toDecimal n, c.isDigit = true := by
  induction n using Nat.strong_induction_on with
  | _ n ih =>
    rcases Nat.eq_zero_or_pos n with h0 | hpos
    · subst h0; simp [toDecimal_zero]
    · have hne : n ≠ 0 := Nat.pos_iff_ne_zero.mp hpos
      rw [toDecimal_succ n hne]
      intro c hc
      rcases List.mem_append.mp hc with hc | hc
      · exact ih (n / 10) (Nat.div_lt_self hpos (by omega)) c hc
      · rcases List.mem_singleton.mp hc with rfl
        exact digitChar_isDigit (n % 10) (Nat.mod_lt n (by omega))

theorem digitsVal_append_digit (cs : List Char) (c : Char) :
    digitsVal (cs ++ [c]) = 10 * digitsVal cs + (c.toNat - 48) := by
  simp [digitsVal, List.foldl_append]

theorem digitsVal_toDecimal (n : Nat) : digitsVal (toDecimal n) = n := by
  induction n using Nat.strong_induction_on with
  | _ n ih =>
    rcases Nat.eq_zero_or_pos n with h0 | hpos
    · subst h0; simp [toDecimal_zero, digitsVal]
    · have hne : n ≠ 0 := Nat.pos_iff_ne_zero.mp hpos
      rw [toDecimal_succ n hne, digitsVal_append_digit,
        ih (n / 10) (Nat.div_lt_self hpos (by omega)),
        digitChar_toNat (n % 10) (Nat.mod_lt n (by omega))]
      omega

theorem digitsVal_leading_zeros (k : Nat) (cs : List Char) :
    digitsVal (List.replicate k '0' ++ cs) = digitsVal cs := by
  induction k with
  | zero => simp
  | succ k ih =>
    simp only [List.replicate_succ, List.cons_append]
    show digitsVal (List.replicate k '0' ++ cs) = _
    exact ih

end CreateExercise

namespace CreateExercise

/-! ### The padded sequence string -/

theorem jsString_toList (n : Nat) :
    (jsString n).toList = if n = 0 then ['0'] else toDecimal n := by
  by_cases h : n = 0 <;> simp [jsString, h]

theorem jsString_toList_ne_nil (n : Nat) : (jsString n).toList ≠ [] := by
  rw [jsString_toList]
  split
  · simp
  · exact toDecimal_ne_nil n (by assumption)

theorem jsString_all_digits (n : Nat) : ∀ c ∈ (jsString n).toList, c.isDigit = true := by
  rw [jsString_toList]
  split
  · intro c hc; rcases List.mem_singleton.mp hc with rfl; decide
  · exact toDecimal_all_digits n

theorem digitsVal_jsString (n : Nat) : digitsVal (jsString n).toList = n := by
  rw [jsString_toList]
  split
  · subst n; decide
  · exact digitsVal_toDecimal n

theorem paddedNumber_toList (n : Nat) :
    (paddedNumber n).toList =
      List.replicate (2 - (jsString n).length) '0' ++ (jsString n).toList := rfl

theorem paddedNumber_toList_ne_nil (n : Nat) : (paddedNumber n).toList ≠ [] := by
  rw [paddedNumber_toList]
  intro h
  exact jsString_toList_ne_nil n (List.append_eq_nil.mp h).2

theorem paddedNumber_all_digits (n : Nat) :
    ∀ c ∈ (paddedNumber n).toList, c.isDigit = true := by
  rw [paddedNumber_toList]
  intro c hc
  rcases List.mem_append.mp hc with hc | hc
  · rcases List.eq_of_mem_replicate hc with rfl; decide
  · exact jsString_all_digits n c hc

theorem digitsVal_paddedNumber (n : Nat) : digitsVal (paddedNumber n).toList = n := by
  rw [paddedNumber_toList, digitsVal_leading_zeros, digitsVal_jsString]

/-! ### The regex round-trip for generated directory names -/

theorem isPrefixOf_append_self (xs ys : List Char) : xs.isPrefixOf (xs ++ ys) = true := by
  induction xs with
  | nil => simp [List.isPrefixOf]
  | cons c cs ih => simp [List.isPrefixOf, ih]

theorem takeWhile_all_append (p : Char → Bool) (xs ys : List Char) (y : Char)
    (hall : ∀ c ∈ xs, p c = true) (hy : p y = false) :
    (xs ++ y :: ys).takeWhile p = xs := by
  induction xs with
  | nil => simp [List.takeWhile, hy]
  | cons c cs ih =>
    have hc : p c = true := hall c (List.mem_cons_self c cs)
    simp only [List.cons_append, List.takeWhile_cons, hc, if_true]
    rw [ih (fun d hd => hall d (List.mem_cons_of_mem c hd))]

theorem fullExerciseName_toList (padded topic : String) :
    (fullExerciseName padded topic).toList =
      "exercise-".toList ++ (padded.toList ++ '-' :: topic.toList) := by
  simp [fullExerciseName, String.toList, String.data_append]

theorem matchExerciseNum_fullName (n : Nat) (topic : String) :
    matchExerciseNum (fullExerciseName (paddedNumber n) topic) = some n := by
  rw [matchExerciseNum]
  rw [fullExerciseName_toList]
  have hpre := isPrefixOf_append_self "exercise-".toList
    ((paddedNumber n).toList ++ '-' :: topic.toList)
  simp only [hpre, if_true]
  have hdrop : ("exercise-".toList ++ ((paddedNumber n).toList ++ '-' :: topic.toList)).drop 9 =
      (paddedNumber n).toList ++ '-' :: topic.toList := by
    have h9 : ("exercise-".toList).length = 9 := rfl
    rw [← h9, List.drop_left]
  rw [hdrop]
  have htake := takeWhile_all_append Char.isDigit (paddedNumber n).toList topic.toList '-'
    (paddedNumber_all_digits n) (by decide)
  rw [htake]
  have hne : ((paddedNumber n).toList.isEmpty) = false := by
    rcases h : (paddedNumber n).toList with _ | ⟨c, cs⟩
    · exact absurd h (paddedNumber_toList_ne_nil n)
    · rfl
  simp only [hne, Bool.false_eq_true, if_false]
  have hdrop2 : ((paddedNumber n).toList ++ '-' :: topic.toList).drop
      ((paddedNumber n).toList.length) = '-' :: topic.toList := List.drop_left _ _
  rw [hdrop2]
  rw [show ('-' :: topic.toList).head? = some '-' from rfl, if_pos rfl]
  exact congrArg some (digitsVal_paddedNumber n)

/-! ### The maximum of the candidate set -/

theorem le_maxNat {x : Nat} {l : List Nat} (h : x ∈ l) : x ≤ maxNat l := by
  induction l with
  | nil => cases h
  | cons a as ih =>
    rcases List.mem_cons.mp h with rfl | h
    · exact le_max_left _ _
    · exact le_trans (ih h) (le_max_right _ _)

theorem maxNat_mem (l : List Nat) (h : l ≠ []) : maxNat l ∈ l := by
  induction l with
  | nil => exact absurd rfl h
  | cons a as ih =>
    rcases eq_or_ne as [] with rfl | hne
    · simp [maxNat]
    · show max a (maxNat as) ∈ a :: as
      rcases le_total (maxNat as) a with hle | hle
      · rw [max_eq_left hle]; exact List.mem_cons_self a as
      · rw [max_eq_right hle]; exact List.mem_cons_of_mem a (ih hne)

end CreateExercise

namespace CreateExercise

/-! ### The sort comparator agrees with the lexicographic order on strings -/

theorem lexLe_iff_not_lex :
    ∀ cs ds : List Char, lexLe cs ds = true ↔ ¬ List.Lex (· < ·) ds cs := by
  intro cs
  induction cs with
  | nil =>
    intro ds
    simp [lexLe, List.Lex.not_nil_right]
  | cons a as ih =>
    intro ds
    cases ds with
    | nil =>
      apply iff_of_false
      · simp [lexLe]
      · exact fun h => h List.Lex.nil
    | cons b bs =>
      show (if a < b then true else if b < a then false else lexLe as bs) = true ↔ _
      rcases lt_trichotomy a b with h | h | h
      · rw [if_pos h]
        apply iff_of_true rfl
        intro hlex
        cases hlex with
        | cons _ => exact lt_irrefl a h
        | rel h' => exact absurd h' (lt_asymm h)
      · subst h
        rw [if_neg (lt_irrefl a), if_neg (lt_irrefl a), List.Lex.cons_iff]
        exact ih bs
      · rw [if_neg (lt_asymm h), if_pos h]
        apply iff_of_false
        · simp
        · exact fun hn => hn (List.Lex.rel h)

theorem strLe_iff_le (a b : String) : strLe a b = true ↔ a ≤ b := by
  rw [String.le_iff_toList_le, ← not_lt]
  exact lexLe_iff_not_lex a.toList b.toList

theorem strLeRel_iff_le (a b : String) : strLeRel a b ↔ a ≤ b := strLe_iff_le a b

theorem strLeRel_total : IsTotal String strLeRel := by
  constructor
  intro a b
  rw [strLeRel_iff_le, strLeRel_iff_le]
  exact le_total a b

theorem strLeRel_trans : IsTrans String strLeRel := by
  constructor
  intro a b c hab hbc
  rw [strLeRel_iff_le] at hab hbc ⊢
  exact le_trans hab hbc

end CreateExercise

namespace CreateExercise

/-! ### Lemmas about the scripts mapping operations -/

theorem jsLookup_nil (k : String) : jsLookup [] k = none := rfl

theorem jsLookup_cons (p : String × String) (rest : List (String × String)) (k : String) :
    jsLookup (p :: rest) k = if p.1 = k then some p.2 else jsLookup rest k := by
  by_cases h : p.1 = k
  · rw [jsLookup, List.find?_cons_of_pos _ (by simpa using h), if_pos h]
    rfl
  · rw [jsLookup, List.find?_cons_of_neg _ (by simpa using h), if_neg h]
    rfl

theorem overwriteAll_keys (rest : List (String × String)) (k v : String) :
    scriptKeys (rest.map (fun p => if p.1 == k then (k, v) else p)) = scriptKeys rest := by
  induction rest with
  | nil => rfl
  | cons p t ih =>
    rw [List.map_cons]
    show _ :: scriptKeys (t.map _) = _ :: scriptKeys t
    rw [ih]
    congr 1
    by_cases h : p.1 = k
    · have : (if p.1 == k then (k, v) else p) = (k, v) := by simp [h]
      rw [this, h]
    · have : (if p.1 == k then (k, v) else p) = p := by simp [h]
      rw [this]

theorem overwriteAll_lookup_self (rest : List (String × String)) (k v : String)
    (hin : k ∈ scriptKeys rest) :
    jsLookup (rest.map (fun p => if p.1 == k then (k, v) else p)) k = some v := by
  induction rest with
  | nil => cases hin
  | cons p t ih =>
    rw [List.map_cons]
    by_cases h : p.1 = k
    · have hif : (if p.1 == k then (k, v) else p) = (k, v) := by simp [h]
      rw [hif, jsLookup_cons, if_pos rfl]
    · have hif : (if p.1 == k then (k, v) else p) = p := by simp [h]
      have hin' : k ∈ scriptKeys t := by
        rcases List.mem_cons.mp hin with h' | h'
        · exact absurd h'.symm h
        · exact h'
      rw [hif, jsLookup_cons, if_neg h]
      exact ih hin'

theorem overwriteAll_lookup_other (rest : List (String × String)) (k v k' : String)
    (h : k ≠ k') :
    jsLookup (rest.map (fun p => if p.1 == k then (k, v) else p)) k' = jsLookup rest k' := by
  induction rest with
  | nil => rfl
  | cons p t ih =>
    rw [List.map_cons]
    by_cases hp : p.1 = k
    · have hif : (if p.1 == k then (k, v) else p) = (k, v) := by simp [hp]
      rw [hif, jsLookup_cons, jsLookup_cons, if_neg h, if_neg (hp ▸ h), ih]
    · have hif : (if p.1 == k then (k, v) else p) = p := by simp [hp]
      rw [hif, jsLookup_cons, jsLookup_cons, ih]

theorem any_key_iff (m : List (String × String)) (k : String) :
    (m.any fun p => p.1 == k) = true ↔ k ∈ scriptKeys m := by
  rw [List.any_eq_true]
  constructor
  · rintro ⟨p, hp, hpk⟩
    exact List.mem_map.mpr ⟨p, hp, beq_iff_eq.mp hpk⟩
  · intro h
    rcases List.mem_map.mp h with ⟨p, hp, rfl⟩
    exact ⟨p, hp, beq_iff_eq.mpr rfl⟩

theorem scriptKeys_jsSet (m : List (String × String)) (k v : String) :
    scriptKeys (jsSet m k v) =
      if k ∈ scriptKeys m then scriptKeys m else scriptKeys m ++ [k] := by
  rw [jsSet]
  by_cases h : k ∈ scriptKeys m
  · rw [if_pos ((any_key_iff m k).mpr h), if_pos h]
    exact overwriteAll_keys m k v
  · rw [if_neg (fun hh => h ((any_key_iff m k).mp hh)), if_neg h]
    simp [scriptKeys]

theorem mem_scriptKeys_jsSet (m : List (String × String)) (k v x : String) :
    x ∈ scriptKeys (jsSet m k v) ↔ x ∈ scriptKeys m ∨ x = k := by
  rw [scriptKeys_jsSet]
  by_cases h : k ∈ scriptKeys m
  · rw [if_pos h]
    constructor
    · exact Or.inl
    · rintro (hx | rfl)
      · exact hx
      · exact h
  · rw [if_neg h]
    simp

theorem jsLookup_append_single (m : List (String × String)) (k v k' : String) (h : k ≠ k') :
    jsLookup (m ++ [(k, v)]) k' = jsLookup m k' := by
  induction m with
  | nil => simp [jsLookup_nil, jsLookup_cons, h]
  | cons p rest ih =>
    rw [List.cons_append, jsLookup_cons, jsLookup_cons, ih]

theorem jsLookup_append_single_self (m : List (String × String)) (k v : String)
    (h : k ∉ scriptKeys m) : jsLookup (m ++ [(k, v)]) k = some v := by
  induction m with
  | nil => simp [jsLookup_cons]
  | cons p rest ih =>
    have hp : ¬ p.1 = k := fun hh => h (List.mem_map.mpr ⟨p, List.mem_cons_self p rest, hh⟩)
    rw [List.cons_append, jsLookup_cons, if_neg hp]
    exact ih (fun hh => h (List.mem_cons_of_mem _ hh))

theorem jsLookup_jsSet_self (m : List (String × String)) (k v : String) :
    jsLookup (jsSet m k v) k = some v := by
  rw [jsSet]
  by_cases h : k ∈ scriptKeys m
  · rw [if_pos ((any_key_iff m k).mpr h)]
    exact overwriteAll_lookup_self m k v h
  · rw [if_neg (fun hh => h ((any_key_iff m k).mp hh))]
    exact jsLookup_append_single_self m k v h

theorem jsLookup_jsSet_other (m : List (String × String)) (k v k' : String) (h : k ≠ k') :
    jsLookup (jsSet m k v) k' = jsLookup m k' := by
  rw [jsSet]
  split
  · exact overwriteAll_lookup_other m k v k' h
  · exact jsLookup_append_single m k v k' h

theorem jsLookup_rebuild (ks : List String) (f : String → String) (k : String) :
    jsLookup (ks.map (fun x => (x, f x))) k = if k ∈ ks then some (f k) else none := by
  induction ks with
  | nil => rfl
  | cons x rest ih =>
    rw [List.map_cons, jsLookup_cons, ih]
    by_cases h : x = k
    · subst h
      simp
    · show (if x = k then some (f x) else _) = _
      rw [if_neg h]
      by_cases hk : k ∈ rest
      · rw [if_pos hk, if_pos (List.mem_cons_of_mem x hk)]
      · rw [if_neg hk, if_neg (by simp [hk, Ne.symm h])]

theorem scriptKeys_sortScripts (m : List (String × String)) :
    scriptKeys (sortScripts m) = List.insertionSort strLeRel (scriptKeys m) := by
  rw [sortScripts, scriptKeys, List.map_map]
  exact List.map_id _

theorem jsLookup_sortScripts (m : List (String × String)) (k : String) :
    jsLookup (sortScripts m) k =
      if k ∈ scriptKeys m then some ((jsLookup m k).getD "") else none := by
  rw [sortScripts, jsLookup_rebuild]
  by_cases h : k ∈ scriptKeys m
  · rw [if_pos h, if_pos (by simpa using h)]
  · rw [if_neg h, if_neg (by simpa using h)]

theorem jsLookup_mem_scriptKeys (m : List (String × String)) (k v : String)
    (h : jsLookup m k = some v) : k ∈ scriptKeys m := by
  induction m with
  | nil => cases h
  | cons p rest ih =>
    rw [jsLookup_cons] at h
    by_cases hp : p.1 = k
    · exact List.mem_map.mpr ⟨p, List.mem_cons_self p rest, hp⟩
    · rw [if_neg hp] at h
      exact List.mem_cons_of_mem _ (ih h)

end CreateExercise

namespace CreateExercise

/-! ### Sorting the scripts mapping -/

theorem sortScripts_keys_sorted (m : List (String × String)) :
    (scriptKeys (sortScripts m)).Sorted (· ≤ ·) := by
  haveI := strLeRel_total
  haveI := strLeRel_trans
  rw [scriptKeys_sortScripts]
  exact (List.sorted_insertionSort strLeRel (scriptKeys m)).imp
    (fun h => (strLeRel_iff_le _ _).mp h)

theorem mem_keys_sortScripts (m : List (String × String)) (k : String) :
    k ∈ scriptKeys (sortScripts m) ↔ k ∈ scriptKeys m := by
  rw [scriptKeys_sortScripts]
  exact List.mem_insertionSort strLeRel

theorem rebuild_self (m : List (String × String)) (hnd : (scriptKeys m).Nodup) :
    (scriptKeys m).map (fun k => (k, (jsLookup m k).getD "")) = m := by
  induction m with
  | nil => rfl
  | cons p rest ih =>
    have hkeys : scriptKeys (p :: rest) = p.1 :: scriptKeys rest := rfl
    rw [hkeys, List.map_cons]
    have hnd' := hnd
    rw [hkeys] at hnd'
    have hhead : p.1 ∉ scriptKeys rest := (List.nodup_cons.mp hnd').1
    congr 1
    · rw [jsLookup_cons, if_pos rfl]
      exact Prod.mk.eta
    · have hmap : (scriptKeys rest).map (fun k => (k, (jsLookup (p :: rest) k).getD ""))
          = (scriptKeys rest).map (fun k => (k, (jsLookup rest k).getD "")) :=
        List.map_congr_left (fun k hk => by
          rw [jsLookup_cons, if_neg (fun hh : p.1 = k => hhead (by rw [hh]; exact hk))])
      rw [hmap, ih (List.nodup_cons.mp hnd').2]

theorem sortScripts_of_sorted (m : List (String × String))
    (hs : List.Sorted strLeRel (scriptKeys m)) (hnd : (scriptKeys m).Nodup) :
    sortScripts m = m := by
  rw [sortScripts, hs.insertionSort_eq]
  exact rebuild_self m hnd

theorem sortScripts_idem (m : List (String × String)) :
    sortScripts (sortScripts m) = sortScripts m := by
  haveI := strLeRel_total
  haveI := strLeRel_trans
  rw [sortScripts, scriptKeys_sortScripts m,
    (List.sorted_insertionSort strLeRel (scriptKeys m)).insertionSort_eq]
  have hmap : (List.insertionSort strLeRel (scriptKeys m)).map
        (fun k => (k, (jsLookup (sortScripts m) k).getD ""))
      = (List.insertionSort strLeRel (scriptKeys m)).map
        (fun k => (k, (jsLookup m k).getD "")) :=
    List.map_congr_left (fun k hk => by
      have hk' : k ∈ scriptKeys m := (List.mem_insertionSort strLeRel).mp hk
      rw [jsLookup_sortScripts, if_pos hk']
      rfl)
  rw [hmap]
  rfl

end CreateExercise

namespace CreateExercise

/-! ### The manifest update as a whole -/

theorem start_ne_build (s : String) : ("start:" ++ s) ≠ ("build:" ++ s) := by
  intro h
  have h2 := congrArg String.toList h
  simp [String.toList, String.data_append] at h2

theorem updateScripts_keys_mem (m : List (String × String)) (s fn : String) (p : Nat)
    (k : String) :
    k ∈ scriptKeys (updateScripts m s fn p) ↔
      k ∈ scriptKeys m ∨ k = ("start:" ++ s) ∨ k = ("build:" ++ s) := by
  rw [updateScripts, mem_keys_sortScripts, mem_scriptKeys_jsSet, mem_scriptKeys_jsSet]
  tauto

theorem updateScripts_keys_sorted (m : List (String × String)) (s fn : String) (p : Nat) :
    (scriptKeys (updateScripts m s fn p)).Sorted (· ≤ ·) := by
  rw [updateScripts]
  exact sortScripts_keys_sorted _

theorem updateScripts_lookup_old (m : List (String × String)) (s fn : String) (p : Nat)
    (k v : String) (hv : jsLookup m k = some v)
    (h1 : k ≠ "start:" ++ s) (h2 : k ≠ "build:" ++ s) :
    jsLookup (updateScripts m s fn p) k = some v := by
  rw [updateScripts, jsLookup_sortScripts]
  have hmem : k ∈ scriptKeys
      (jsSet (jsSet m ("start:" ++ s) (startCommand fn p)) ("build:" ++ s)
        (buildCommand fn)) := by
    rw [mem_scriptKeys_jsSet, mem_scriptKeys_jsSet]
    exact Or.inl (Or.inl (jsLookup_mem_scriptKeys m k v hv))
  rw [if_pos hmem, jsLookup_jsSet_other _ _ _ _ (Ne.symm h2),
    jsLookup_jsSet_other _ _ _ _ (Ne.symm h1), hv]
  rfl

theorem updateScripts_lookup_start (m : List (String × String)) (s fn : String) (p : Nat) :
    jsLookup (updateScripts m s fn p) ("start:" ++ s) = some (startCommand fn p) := by
  rw [updateScripts, jsLookup_sortScripts]
  have hmem : ("start:" ++ s) ∈ scriptKeys
      (jsSet (jsSet m ("start:" ++ s) (startCommand fn p)) ("build:" ++ s)
        (buildCommand fn)) := by
    rw [mem_scriptKeys_jsSet, mem_scriptKeys_jsSet]
    exact Or.inl (Or.inr rfl)
  rw [if_pos hmem, jsLookup_jsSet_other _ _ _ _ (Ne.symm (start_ne_build s)),
    jsLookup_jsSet_self]
  rfl

theorem updateScripts_lookup_build (m : List (String × String)) (s fn : String) (p : Nat) :
    jsLookup (updateScripts m s fn p) ("build:" ++ s) = some (buildCommand fn) := by
  rw [updateScripts, jsLookup_sortScripts]
  have hmem : ("build:" ++ s) ∈ scriptKeys
      (jsSet (jsSet m ("start:" ++ s) (startCommand fn p)) ("build:" ++ s)
        (buildCommand fn)) := by
    rw [mem_scriptKeys_jsSet]
    exact Or.inr rfl
  rw [if_pos hmem, jsLookup_jsSet_self]
  rfl

end CreateExercise

namespace CreateExercise

/-! ### Allocator helper lemmas -/

theorem nextNumber_none : nextNumber none = 1 := rfl

theorem nextNumber_no_prefix (entries : List String)
    (h : ∀ d ∈ entries, jsStartsWith d "exercise-" = false) :
    nextNumber (some entries) = 1 := by
  show (if ((entries.filter (fun d => jsStartsWith d "exercise-")).map entryValue).isEmpty
      then 1 else _) = 1
  have hfil : entries.filter (fun d => jsStartsWith d "exercise-") = [] := by
    rw [List.filter_eq_nil_iff]
    intro d hd
    rw [h d hd]
    simp
  rw [hfil]
  rfl

theorem nextNumber_of_prefix_mem (entries : List String) (d : String)
    (hd : d ∈ entries) (hp : jsStartsWith d "exercise-" = true) :
    nextNumber (some entries) =
      maxNat ((entries.filter (fun e => jsStartsWith e "exercise-")).map entryValue) + 1 := by
  show (if ((entries.filter (fun e => jsStartsWith e "exercise-")).map entryValue).isEmpty
      then 1 else _) = _
  have hmem : entryValue d ∈
      (entries.filter (fun e => jsStartsWith e "exercise-")).map entryValue :=
    List.mem_map.mpr ⟨d, List.mem_filter.mpr ⟨hd, hp⟩, rfl⟩
  have hne : ((entries.filter (fun e => jsStartsWith e "exercise-")).map entryValue).isEmpty
      = false := by
    rcases hl : (entries.filter (fun e => jsStartsWith e "exercise-")).map entryValue with
      _ | ⟨x, xs⟩
    · rw [hl] at hmem; cases hmem
    · rfl
  rw [hne]
  rfl

theorem nextNumber_gt_entry (entries : List String) (d : String)
    (hd : d ∈ entries) (hp : jsStartsWith d "exercise-" = true) :
    entryValue d < nextNumber (some entries) := by
  rw [nextNumber_of_prefix_mem entries d hd hp]
  have hmem : entryValue d ∈
      (entries.filter (fun e => jsStartsWith e "exercise-")).map entryValue :=
    List.mem_map.mpr ⟨d, List.mem_filter.mpr ⟨hd, hp⟩, rfl⟩
  exact Nat.lt_succ_of_le (le_maxNat hmem)

theorem nextNumber_eq_succ_entry (entries : List String)
    (h : ∃ d ∈ entries, jsStartsWith d "exercise-" = true) :
    ∃ d ∈ entries, jsStartsWith d "exercise-" = true ∧
      nextNumber (some entries) = entryValue d + 1 := by
  rcases h with ⟨d0, hd0, hp0⟩
  rw [nextNumber_of_prefix_mem entries d0 hd0 hp0]
  have hne : (entries.filter (fun e => jsStartsWith e "exercise-")).map entryValue ≠ [] := by
    intro hl
    have hmem : entryValue d0 ∈
        (entries.filter (fun e => jsStartsWith e "exercise-")).map entryValue :=
      List.mem_map.mpr ⟨d0, List.mem_filter.mpr ⟨hd0, hp0⟩, rfl⟩
    rw [hl] at hmem
    cases hmem
  rcases List.mem_map.mp (maxNat_mem _ hne) with ⟨d, hdf, hdv⟩
  rcases List.mem_filter.mp hdf with ⟨hdmem, hdp⟩
  exact ⟨d, hdmem, hdp, by rw [hdv]⟩

theorem jsStartsWith_fullName (padded topic : String) :
    jsStartsWith (fullExerciseName padded topic) "exercise-" = true := by
  rw [jsStartsWith, fullExerciseName_toList]
  exact isPrefixOf_append_self _ _

theorem entryValue_fullName (n : Nat) (topic : String) :
    entryValue (fullExerciseName (paddedNumber n) topic) = n := by
  rw [entryValue, matchExerciseNum_fullName]
  rfl

end CreateExercise

namespace CreateExercise

/-! ### Width of the decimal rendering; heading equivalences -/

theorem jsString_length_lt_ten (n : Nat) (h : n < 10) : (jsString n).toList.length = 1 := by
  rw [jsString_toList]
  by_cases h0 : n = 0
  · rw [if_pos h0]
    rfl
  · rw [if_neg h0, toDecimal_succ n h0, Nat.div_eq_of_lt h]
    rfl

theorem jsString_length_ge_ten (n : Nat) (h : 10 ≤ n) : 2 ≤ (jsString n).toList.length := by
  rw [jsString_toList, if_neg (by omega), toDecimal_succ n (by omega)]
  have hdiv : n / 10 ≠ 0 := by omega
  rw [List.length_append]
  have h1 : 1 ≤ (toDecimal (n / 10)).length := by
    rcases hl : toDecimal (n / 10) with _ | ⟨c, cs⟩
    · exact absurd hl (toDecimal_ne_nil (n / 10) hdiv)
    · simp
  simp only [List.length_singleton]
  omega

theorem paddedNumber_eq_spec (n : Nat) : paddedNumber n = specPaddedNumber n := by
  by_cases h : n < 10
  · rw [specPaddedNumber, if_pos h]
    apply String.toList_inj.mp
    rw [paddedNumber_toList]
    have hlen : (jsString n).length = 1 := jsString_length_lt_ten n h
    rw [hlen]
    show '0' :: (jsString n).toList = ("0" ++ jsString n).toList
    simp [String.toList, String.data_append]
  · rw [specPaddedNumber, if_neg h]
    apply String.toList_inj.mp
    rw [paddedNumber_toList]
    have hlen : 2 ≤ (jsString n).length := jsString_length_ge_ten n (by omega)
    rw [Nat.sub_eq_zero_of_le hlen]
    simp

theorem humanizeTopic_eq_spec (topic : String) :
    humanizeTopic topic = specHumanizedTitle topic := by
  rw [humanizeTopic, specHumanizedTitle]
  rcases h : topic.toList with _ | ⟨c, rest⟩ <;> simp [h]

theorem exerciseReadme_eq_spec (padded topic shortName : String) (p : Nat) :
    exerciseReadme padded topic shortName p =
      "# " ++ specHeading padded topic ++ readmeTemplateRest shortName p := by
  rw [exerciseReadme, specHeading, humanizeTopic_eq_spec]
  apply String.toList_inj.mp
  simp [String.toList, String.data_append]

end CreateExercise

namespace CreateExercise

/-! ### Claims -/

/-- C1: for every set of existing entry names in the projects directory, the
allocator's next sequence number equals one plus the maximum numeric value
extracted from entries matching `exercise-<digits>-...`; entries starting with
`exercise-` that do not match the digits pattern contribute 0; the result is 1
when the projects directory is absent or holds no `exercise-`-prefixed entry. -/
theorem C1_next_sequence_number :
    nextNumber none = 1 ∧
    (∀ entries : List String, (∀ d ∈ entries, jsStartsWith d "exercise-" = false) →
      nextNumber (some entries) = 1) ∧
    (∀ (entries : List String) (d : String), d ∈ entries →
      jsStartsWith d "exercise-" = true → entryValue d < nextNumber (some entries)) ∧
    (∀ entries : List String, (∃ d ∈ entries, jsStartsWith d "exercise-" = true) →
      ∃ d ∈ entries, jsStartsWith d "exercise-" = true ∧
        nextNumber (some entries) = entryValue d + 1) ∧
    entryValue "exercise-" = 0 ∧
    entryValue "exercise-stray" = 0 ∧
    entryValue "exercise-03-data-binding" = 3 ∧
    nextNumber (some ["exercise-01-basics", "exercise-03-data-binding",
      "exercise-05-services"]) = 6 :=
  ⟨nextNumber_none, nextNumber_no_prefix, nextNumber_gt_entry, nextNumber_eq_succ_entry,
   by decide, by decide, by decide, by decide⟩

/-- Witness for C1: the characterisation evaluated on concrete listings. -/
theorem C1_next_sequence_number_witness :
    nextNumber (some ["README.md"]) = 1 ∧
    entryValue "exercise-02-pipes" < nextNumber (some ["exercise-02-pipes"]) ∧
    (∃ d ∈ ["exercise-02-pipes"], jsStartsWith d "exercise-" = true ∧
      nextNumber (some ["exercise-02-pipes"]) = entryValue d + 1) :=
  ⟨C1_next_sequence_number.2.1 ["README.md"] (by decide),
   C1_next_sequence_number.2.2.1 ["exercise-02-pipes"] "exercise-02-pipes"
     (by decide) (by decide),
   C1_next_sequence_number.2.2.2.1 ["exercise-02-pipes"]
     ⟨"exercise-02-pipes", by decide, by decide⟩⟩

/-- C3: once the directory created by an invocation (named from the allocated
number and topic) is visible in the next invocation's listing, the next
allocation is strictly larger; and the allocation is a deterministic function
of the directory snapshot. -/
theorem C3_monotonic_allocation (dir : Option (List String)) (topic : String)
    (entries' : List String)
    (h : fullExerciseName (paddedNumber (nextNumber dir)) topic ∈ entries') :
    nextNumber dir < nextNumber (some entries') ∧
    (∀ d1 d2 : Option (List String), d1 = d2 → nextNumber d1 = nextNumber d2) := by
  constructor
  · have hp := jsStartsWith_fullName (paddedNumber (nextNumber dir)) topic
    have hgt := nextNumber_gt_entry entries' _ h hp
    rwa [entryValue_fullName] at hgt
  · intro d1 d2 hd
    rw [hd]

/-- Witness for C3: allocating against an empty directory gives 1, and a
listing containing the generated `exercise-01-routing` allocates 2. -/
theorem C3_monotonic_allocation_witness :
    fullExerciseName (paddedNumber (nextNumber (some ([] : List String)))) "routing"
      ∈ ["exercise-01-routing"] ∧
    nextNumber (some ([] : List String)) < nextNumber (some ["exercise-01-routing"]) :=
  ⟨by decide,
   (C3_monotonic_allocation (some []) "routing" ["exercise-01-routing"] (by decide)).1⟩

/-- C4: when the generator step throws, the manifest scripts and the README
files are exactly as before, the exit status is 1, and the error message is
printed to standard error. -/
theorem C4_generator_failure (st : RepoState) (topic msg : String) (h : topic ≠ "") :
    (runScript (some topic) st (some msg)).state = st ∧
    (runScript (some topic) st (some msg)).state.scripts = st.scripts ∧
    (runScript (some topic) st (some msg)).state.readmes = st.readmes ∧
    (runScript (some topic) st (some msg)).exitCode = 1 ∧
    (runScript (some topic) st (some msg)).stderrLines =
      ["\n❌ Error creating exercise: " ++ msg] := by
  have hrun : runScript (some topic) st (some msg) =
      ⟨1, ["\n❌ Error creating exercise: " ++ msg], st, true, true⟩ := by
    rw [runScript, if_neg h]
  exact ⟨by rw [hrun], by rw [hrun], by rw [hrun], by rw [hrun], by rw [hrun]⟩

/-- Witness for C4: a concrete failing run leaves the concrete state intact. -/
theorem C4_generator_failure_witness :
    ("routing" : String) ≠ "" ∧
    (runScript (some "routing") ⟨none, [("zzz", "b")], []⟩ (some "boom")).state =
      ⟨none, [("zzz", "b")], []⟩ ∧
    (runScript (some "routing") ⟨none, [("zzz", "b")], []⟩ (some "boom")).exitCode = 1 :=
  ⟨by decide,
   (C4_generator_failure ⟨none, [("zzz", "b")], []⟩ "routing" "boom" (by decide)).1,
   (C4_generator_failure ⟨none, [("zzz", "b")], []⟩ "routing" "boom" (by decide)).2.2.2.1⟩

/-- C5: with no topic argument the script prints the usage error, exits with
status 1, and performs no side effect: the state is untouched, the directory
is never read and the generator never runs. -/
theorem C5_missing_argument (st : RepoState) (genError : Option String) :
    runScript none st genError = ⟨1, usageLines, st, false, false⟩ ∧
    (runScript none st genError).state = st ∧
    (runScript none st genError).dirScanned = false ∧
    (runScript none st genError).generatorInvoked = false :=
  ⟨rfl, rfl, rfl, rfl⟩

/-- C6: the rendered README opens with the heading `Exercise <padded>: `
followed by the topic's first character upper-cased and the remaining
characters as typed except that hyphens become spaces; `routing` at 06 gives
`Exercise 06: Routing`, `two-way-binding` at 07 gives
`Exercise 07: Two way binding`. -/
theorem C6_readme_heading :
    (∀ (padded topic shortName : String) (p : Nat),
      exerciseReadme padded topic shortName p =
        "# " ++ specHeading padded topic ++ readmeTemplateRest shortName p) ∧
    specHeading "06" "routing" = "Exercise 06: Routing" ∧
    specHeading "07" "two-way-binding" = "Exercise 07: Two way binding" :=
  ⟨exerciseReadme_eq_spec, by decide, by decide⟩

/-- C7: the padded sequence string is the decimal rendering left-padded with
zeros to minimum width 2 and never truncated: 1 ↦ "01", 10 ↦ "10",
100 ↦ "100". -/
theorem C7_padded_width :
    (∀ n : Nat, paddedNumber n = specPaddedNumber n) ∧
    paddedNumber 1 = "01" ∧ paddedNumber 10 = "10" ∧ paddedNumber 100 = "100" :=
  ⟨paddedNumber_eq_spec, by decide, by decide, by decide⟩

/-- C8: the derived port is exactly 4200 plus the sequence number, with no
upper bound; for sequence 6 the port is 4206. -/
theorem C8_port_derivation :
    (∀ n : Nat, port n = 4200 + n) ∧ port 6 = 4206 :=
  ⟨fun _ => rfl, rfl⟩

/-- C9: the key-sort step is idempotent, and on a mapping whose keys are
already strictly ascending it is the identity (same order, no value change). -/
theorem C9_sort_idempotence :
    (∀ m : List (String × String), sortScripts (sortScripts m) = sortScripts m) ∧
    (∀ m : List (String × String), (scriptKeys m).Sorted (· < ·) → sortScripts m = m) := by
  refine ⟨sortScripts_idem, ?_⟩
  intro m hs
  apply sortScripts_of_sorted
  · exact List.Pairwise.imp (fun hab => (strLeRel_iff_le _ _).mpr (le_of_lt hab)) hs
  · exact List.Pairwise.imp (fun hab => ne_of_lt hab) hs

/-- Witness for C9: a concrete already-sorted mapping is left unchanged. -/
theorem C9_sort_idempotence_witness :
    (scriptKeys [("build:ex01", "a"), ("start:ex01", "b")]).Sorted (· < ·) ∧
    sortScripts [("build:ex01", "a"), ("start:ex01", "b")] =
      [("build:ex01", "a"), ("start:ex01", "b")] := by
  have hlt : ("build:ex01" : String) < "start:ex01" := by
    rw [String.lt_iff_toList_lt]
    decide
  have hs : (scriptKeys [("build:ex01", "a"), ("start:ex01", "b")]).Sorted (· < ·) := by
    refine List.Pairwise.cons ?_ (List.pairwise_singleton _ _)
    intro b hb
    rcases List.mem_singleton.mp hb with rfl
    exact hlt
  exact ⟨hs, C9_sort_idempotence.2 _ hs⟩

/-- C10: an empty-string topic is rejected by the falsy check exactly like a
missing argument: usage error, exit status 1, no side effect. -/
theorem C10_empty_topic (st : RepoState) (genError : Option String) :
    runScript (some "") st genError = runScript none st genError ∧
    runScript (some "") st genError = ⟨1, usageLines, st, false, false⟩ :=
  ⟨rfl, rfl⟩

/-- C2 counterexample: a manifest that already contains the key `start:ex06`
does not keep its previous value through the update — the claim's "every
pre-existing key maps to exactly its previous value" fails at this input. -/
theorem C2_counterexample_overwrite :
    jsLookup [("start:ex06", "old")] "start:ex06" = some "old" ∧
    jsLookup (updateScripts [("start:ex06", "old")] "ex06" "exercise-06-routing" 4206)
      "start:ex06" ≠ some "old" := by
  decide

/-- C2 (amended): after the update the key set is the old keys united with the
two added script keys, the keys are in ascending lexicographic order, every
pre-existing key other than the two added keys keeps its previous value, and
the two added keys map to the new serve/build commands (overwriting any
previous value); the spec's concrete example holds. -/
theorem C2_amended_manifest_update (m : List (String × String)) (s fn : String) (p : Nat) :
    (∀ k, k ∈ scriptKeys (updateScripts m s fn p) ↔
      k ∈ scriptKeys m ∨ k = "start:" ++ s ∨ k = "build:" ++ s) ∧
    (scriptKeys (updateScripts m s fn p)).Sorted (· ≤ ·) ∧
    (∀ k v, jsLookup m k = some v → k ≠ "start:" ++ s → k ≠ "build:" ++ s →
      jsLookup (updateScripts m s fn p) k = some v) ∧
    jsLookup (updateScripts m s fn p) ("start:" ++ s) = some (startCommand fn p) ∧
    jsLookup (updateScripts m s fn p) ("build:" ++ s) = some (buildCommand fn) ∧
    scriptKeys (updateScripts [("start:ex01", "a"), ("zzz", "b")] "ex06"
      "exercise-06-routing" 4206) = ["build:ex06", "start:ex01", "start:ex06", "zzz"] :=
  ⟨updateScripts_keys_mem m s fn p, updateScripts_keys_sorted m s fn p,
   fun k v hv h1 h2 => updateScripts_lookup_old m s fn p k v hv h1 h2,
   updateScripts_lookup_start m s fn p, updateScripts_lookup_build m s fn p, by decide⟩

/-- Witness for the amended C2: a concrete pre-existing key away from the two
added keys keeps its value. -/
theorem C2_amended_manifest_update_witness :
    jsLookup [("start:ex01", "a"), ("zzz", "b")] "zzz" = some "b" ∧
    ("zzz" : String) ≠ "start:" ++ "ex06" ∧ ("zzz" : String) ≠ "build:" ++ "ex06" ∧
    jsLookup (updateScripts [("start:ex01", "a"), ("zzz", "b")] "ex06"
      "exercise-06-routing" 4206) "zzz" = some "b" :=
  ⟨by decide, by decide, by decide,
   (C2_amended_manifest_update [("start:ex01", "a"), ("zzz", "b")] "ex06"
     "exercise-06-routing" 4206).2.2.1 "zzz" "b" (by decide) (by decide) (by decide)⟩

end CreateExercise
